import Mathlib

/-!
Shallow embedding of the transaction-processor ledger (src/account.rs).

Monetary amounts are `rust_decimal::Decimal` values in the source.  At the
fixed input scale the representable magnitudes form the interval
`[-(2^96 - 1), 2^96 - 1]` (96-bit mantissa); we embed a decimal value as an
`Int` together with the explicit range check performed by `checked_add` /
`checked_sub`, which return `none` exactly when the result leaves that range.

Rust methods that take `&mut self` and can fail mid-way are embedded as
functions returning `Except Error Unit × State`: the returned state carries
every field assignment executed before the failing step, exactly as the
mutated `self` does in the source.
-/

namespace Processor

/-- Largest representable decimal magnitude (2^96 - 1). -/
def DMAX : Int := 79228162514264337593543950335

/-- Whether an integer value fits the decimal representation. -/
def inRange (x : Int) : Bool := decide (-DMAX ≤ x) && decide (x ≤ DMAX)

/-- `Decimal::checked_add`: `some` of the sum when representable, else `none`. -/
def checked_add (a b : Int) : Option Int :=
  if inRange (a + b) then some (a + b) else none

/-- `Decimal::checked_sub`: `some` of the difference when representable, else `none`. -/
def checked_sub (a b : Int) : Option Int :=
  if inRange (a - b) then some (a - b) else none

/-- Error kinds from src/error.rs. -/
inductive Error where
  | InvalidData
  | InsufficientFunds
  | Overflow
  | TxExists
deriving DecidableEq, Repr

instance : DecidableEq (Except Error Unit) := fun a b =>
  match a, b with
  | Except.ok (), Except.ok () => isTrue rfl
  | Except.error e1, Except.error e2 =>
    match decEq e1 e2 with
    | isTrue h => isTrue (h ▸ rfl)
    | isFalse h => isFalse (fun he => h (Except.error.inj he))
  | Except.ok (), Except.error _ => isFalse (fun h => Except.noConfusion h)
  | Except.error _, Except.ok () => isFalse (fun h => Except.noConfusion h)

/-- Dispute lifecycle status of a transaction (src/account.rs, `Status`). -/
inductive Status where
  | Open
  | Pending
  | Resolved
  | Chargeback
deriving DecidableEq, Repr

/-- Per-client account record (src/account.rs, `Account`). -/
structure Account where
  client : Nat
  available : Int
  held : Int
  total : Int
  locked : Bool
deriving DecidableEq, Repr

/-- `Account::new(id)`: default (all-zero, unlocked) account with the given client id. -/
def Account.new (id : Nat) : Account :=
  { client := id, available := 0, held := 0, total := 0, locked := false }

/-- `Account::deposit`: `available += amount; total += amount`, each overflow-checked.
The first assignment is committed before the second check runs. -/
def Account.deposit (a : Account) (amount : Int) : Except Error Unit × Account :=
  match checked_add a.available amount with
  | none => (Except.error Error.Overflow, a)
  | some av =>
    let a1 := { a with available := av }
    match checked_add a1.total amount with
    | none => (Except.error Error.Overflow, a1)
    | some t => (Except.ok (), { a1 with total := t })

/-- `Account::hold`: `held += amount; total += amount`, each overflow-checked. -/
def Account.hold (a : Account) (amount : Int) : Except Error Unit × Account :=
  match checked_add a.held amount with
  | none => (Except.error Error.Overflow, a)
  | some h =>
    let a1 := { a with held := h }
    match checked_add a1.total amount with
    | none => (Except.error Error.Overflow, a1)
    | some t => (Except.ok (), { a1 with total := t })

/-- `Account::withdraw`: compute `available - amount`; negative result fails with
`InsufficientFunds` before any mutation; otherwise commit `available` and then
subtract from `total` (overflow-checked after the commit). -/
def Account.withdraw (a : Account) (amount : Int) : Except Error Unit × Account :=
  match checked_sub a.available amount with
  | none => (Except.error Error.Overflow, a)
  | some av =>
    if av < 0 then (Except.error Error.InsufficientFunds, a)
    else
      let a1 := { a with available := av }
      match checked_sub a1.total amount with
      | none => (Except.error Error.Overflow, a1)
      | some t => (Except.ok (), { a1 with total := t })

/-- `Account::withdraw_held`: same shape as `withdraw`, acting on `held`. -/
def Account.withdraw_held (a : Account) (amount : Int) : Except Error Unit × Account :=
  match checked_sub a.held amount with
  | none => (Except.error Error.Overflow, a)
  | some h =>
    if h < 0 then (Except.error Error.InsufficientFunds, a)
    else
      let a1 := { a with held := h }
      match checked_sub a1.total amount with
      | none => (Except.error Error.Overflow, a1)
      | some t => (Except.ok (), { a1 with total := t })

/-- `Account::dispute`: `withdraw(amount)?` then `hold(amount)?`. -/
def Account.dispute (a : Account) (amount : Int) : Except Error Unit × Account :=
  match a.withdraw amount with
  | (Except.error e, a1) => (Except.error e, a1)
  | (Except.ok _, a1) => a1.hold amount

/-- `Account::resolve`: `withdraw_held(amount)?` then `deposit(amount)?`. -/
def Account.resolve (a : Account) (amount : Int) : Except Error Unit × Account :=
  match a.withdraw_held amount with
  | (Except.error e, a1) => (Except.error e, a1)
  | (Except.ok _, a1) => a1.deposit amount

/-- `Account::chargeback`: `withdraw_held(amount)?` then `locked = true`. -/
def Account.chargeback (a : Account) (amount : Int) : Except Error Unit × Account :=
  match a.withdraw_held amount with
  | (Except.error e, a1) => (Except.error e, a1)
  | (Except.ok _, a1) => (Except.ok (), { a1 with locked := true })

/-- `Account::frozen`: read accessor for `locked`. -/
def Account.frozen (a : Account) : Bool := a.locked

/-- Record of a past deposit/withdrawal (src/account.rs, `Transaction`).
Note: it stores no client id. -/
structure Transaction where
  id : Nat
  amount : Int
  status : Status
deriving DecidableEq, Repr

/-- `Transaction::new(id, amount)`: freshly recorded transaction, status `Open`. -/
def Transaction.new (id : Nat) (amount : Int) : Transaction :=
  { id := id, amount := amount, status := Status.Open }

/-- Association-list lookup, modelling `HashMap::get`. -/
def findKV {β : Type} (m : List (Nat × β)) (k : Nat) : Option β :=
  match m with
  | [] => none
  | (k2, v) :: rest => if k = k2 then some v else findKV rest k

/-- Association-list insert-or-replace, modelling `HashMap::insert`. -/
def upsertKV {β : Type} (m : List (Nat × β)) (k : Nat) (v : β) : List (Nat × β) :=
  match m with
  | [] => [(k, v)]
  | (k2, v2) :: rest =>
    if k = k2 then (k, v) :: rest else (k2, v2) :: upsertKV rest k v

/-- The ledger state (src/account.rs, `Accounts`): client id → Account and
transaction id → Transaction. -/
structure Accounts where
  inner : List (Nat × Account)
  transactions : List (Nat × Transaction)
deriving DecidableEq, Repr

/-- `Accounts::new()`: empty ledger. -/
def Accounts.new : Accounts := { inner := [], transactions := [] }

/-- `Accounts::account(id)`: `entry(id).or_insert(Account::new(id)).clone()` —
inserts a fresh account when absent, and returns the (possibly new) account
together with the updated ledger. -/
def Accounts.account (s : Accounts) (id : Nat) : Accounts × Account :=
  match findKV s.inner id with
  | some a => (s, a)
  | none =>
    let a := Account.new id
    ({ s with inner := upsertKV s.inner id a }, a)

/-- `Accounts::transaction(id)`: lookup in the transaction table. -/
def Accounts.transaction (s : Accounts) (id : Nat) : Option Transaction :=
  findKV s.transactions id

/-- `Accounts::update_account`: insert the account keyed by its own client id. -/
def Accounts.update_account (s : Accounts) (a : Account) : Accounts :=
  { s with inner := upsertKV s.inner a.client a }

/-- `Accounts::update_transaction`: insert the transaction keyed by its own id. -/
def Accounts.update_transaction (s : Accounts) (t : Transaction) : Accounts :=
  { s with transactions := upsertKV s.transactions t.id t }

/-- `Accounts::deposit(client, amount, tx)` (src/account.rs lines 120-134). -/
def Accounts.deposit (s : Accounts) (client : Nat) (amount : Int) (tx : Nat) :
    Except Error Unit × Accounts :=
  if (s.transaction tx).isSome then (Except.error Error.TxExists, s)
  else
    let p := s.account client
    let s1 := p.1
    let account := p.2
    if account.frozen then (Except.ok (), s1)
    else
      match account.deposit amount with
      | (Except.error e, _) => (Except.error e, s1)
      | (Except.ok _, account2) =>
        let s2 := s1.update_account account2
        (Except.ok (), s2.update_transaction (Transaction.new tx amount))

/-- `Accounts::withdraw(client, amount, tx)` (src/account.rs lines 136-150). -/
def Accounts.withdraw (s : Accounts) (client : Nat) (amount : Int) (tx : Nat) :
    Except Error Unit × Accounts :=
  if (s.transaction tx).isSome then (Except.error Error.TxExists, s)
  else
    let p := s.account client
    let s1 := p.1
    let account := p.2
    if account.frozen then (Except.ok (), s1)
    else
      match account.withdraw amount with
      | (Except.error e, _) => (Except.error e, s1)
      | (Except.ok _, account2) =>
        let s2 := s1.update_account account2
        (Except.ok (), s2.update_transaction (Transaction.new tx amount))

/-- `Accounts::dispute(client, tx)` (src/account.rs lines 152-171).
Note the source catches only `Err(InsufficientFunds)`; on any other result of
`account.dispute` (including `Err(Overflow)`) it falls through, marks the
transaction `Pending` and commits the (possibly partially mutated) account. -/
def Accounts.dispute (s : Accounts) (client : Nat) (tx : Nat) :
    Except Error Unit × Accounts :=
  match s.transaction tx with
  | none => (Except.ok (), s)
  | some tr =>
    let p := s.account client
    let s1 := p.1
    let account := p.2
    if account.frozen then (Except.ok (), s1)
    else
      match tr.status with
      | Status.Open =>
        match account.dispute tr.amount with
        | (Except.error Error.InsufficientFunds, _) => (Except.ok (), s1)
        | (_, account2) =>
          let s2 := s1.update_transaction { tr with status := Status.Pending }
          (Except.ok (), s2.update_account account2)
      | _ => (Except.ok (), s1.update_account account)

/-- `Accounts::resolve(client, tx)` (src/account.rs lines 173-192); same
fall-through on non-`InsufficientFunds` errors as `dispute`. -/
def Accounts.resolve (s : Accounts) (client : Nat) (tx : Nat) :
    Except Error Unit × Accounts :=
  match s.transaction tx with
  | none => (Except.ok (), s)
  | some tr =>
    let p := s.account client
    let s1 := p.1
    let account := p.2
    if account.frozen then (Except.ok (), s1)
    else
      match tr.status with
      | Status.Pending =>
        match account.resolve tr.amount with
        | (Except.error Error.InsufficientFunds, _) => (Except.ok (), s1)
        | (_, account2) =>
          let s2 := s1.update_transaction { tr with status := Status.Resolved }
          (Except.ok (), s2.update_account account2)
      | _ => (Except.ok (), s1.update_account account)

/-- `Accounts::chargeback(client, tx)` (src/account.rs lines 194-213); same
fall-through on non-`InsufficientFunds` errors as `dispute`. -/
def Accounts.chargeback (s : Accounts) (client : Nat) (tx : Nat) :
    Except Error Unit × Accounts :=
  match s.transaction tx with
  | none => (Except.ok (), s)
  | some tr =>
    let p := s.account client
    let s1 := p.1
    let account := p.2
    if account.frozen then (Except.ok (), s1)
    else
      match tr.status with
      | Status.Pending =>
        match account.chargeback tr.amount with
        | (Except.error Error.InsufficientFunds, _) => (Except.ok (), s1)
        | (_, account2) =>
          let s2 := s1.update_transaction { tr with status := Status.Chargeback }
          (Except.ok (), s2.update_account account2)
      | _ => (Except.ok (), s1.update_account account)

/-- One input event, as routed by `Processor::process` (src/processor.rs). -/
inductive Event where
  | deposit (client : Nat) (amount : Int) (tx : Nat)
  | withdrawal (client : Nat) (amount : Int) (tx : Nat)
  | dispute (client : Nat) (tx : Nat)
  | resolve (client : Nat) (tx : Nat)
  | chargeback (client : Nat) (tx : Nat)
deriving DecidableEq, Repr

/-- Apply one event to the ledger; the driver logs per-event errors and keeps
the resulting state (src/processor.rs, `Processor::start`/`process`). -/
def applyEvent (s : Accounts) (e : Event) : Accounts :=
  match e with
  | Event.deposit c a t => (s.deposit c a t).2
  | Event.withdrawal c a t => (s.withdraw c a t).2
  | Event.dispute c t => (s.dispute c t).2
  | Event.resolve c t => (s.resolve c t).2
  | Event.chargeback c t => (s.chargeback c t).2

/-- Fold a whole event log over the empty ledger. -/
def runEvents (es : List Event) : Accounts :=
  es.foldl applyEvent Accounts.new

/-- Boundary contract of the Record Source (spec §6): amounts carried by
deposit/withdrawal events are non-negative representable decimals. -/
def Event.validB : Event → Bool
  | Event.deposit _ a _ => decide (0 ≤ a) && decide (a ≤ DMAX)
  | Event.withdrawal _ a _ => decide (0 ≤ a) && decide (a ≤ DMAX)
  | _ => true

/-- Ledger state after spec §8 scenario 3: Deposit(1,61,100),
Deposit(1,64,120), Dispute(1,61), Deposit(1,66,100). -/
def scenario3 : Accounts :=
  runEvents [Event.deposit 1 100 61, Event.deposit 1 120 64,
    Event.dispute 1 61, Event.deposit 1 100 66]

/-- Ledger state after applying Chargeback(1,61) to `scenario3`. -/
def scenario4 : Accounts := (scenario3.chargeback 1 61).2

/-- The per-account balance invariant, together with representability of the
total (which bounds both components). -/
def Account.inv (a : Account) : Prop :=
  a.total = a.available + a.held ∧ 0 ≤ a.available ∧ 0 ≤ a.held ∧ a.total ≤ DMAX

/-- Ledger-wide inductive invariant: every stored account satisfies the
balance invariant and every recorded transaction amount is a non-negative
representable decimal. -/
def Accounts.inv (s : Accounts) : Prop :=
  (∀ c a, findKV s.inner c = some a → Account.inv a) ∧
  (∀ i t, findKV s.transactions i = some t → 0 ≤ t.amount ∧ t.amount ≤ DMAX)

theorem checked_add_in {a b : Int} (h1 : -DMAX ≤ a + b) (h2 : a + b ≤ DMAX) :
    checked_add a b = some (a + b) := by
  simp [checked_add, inRange, h1, h2]

theorem checked_sub_in {a b : Int} (h1 : -DMAX ≤ a - b) (h2 : a - b ≤ DMAX) :
    checked_sub a b = some (a - b) := by
  simp [checked_sub, inRange, h1, h2]

theorem findKV_upsertKV_self {β : Type} (m : List (Nat × β)) (k : Nat) (v : β) :
    findKV (upsertKV m k v) k = some v := by
  induction m with
  | nil => simp [upsertKV, findKV]
  | cons p rest ih =>
    obtain ⟨k2, v2⟩ := p
    by_cases h : k = k2
    · simp [upsertKV, findKV, h]
    · simp [upsertKV, findKV, h, ih]

theorem findKV_upsertKV_ne {β : Type} (m : List (Nat × β)) (k : Nat) (v : β)
    (k2 : Nat) (h : k2 ≠ k) : findKV (upsertKV m k v) k2 = findKV m k2 := by
  induction m with
  | nil => simp [upsertKV, findKV, h]
  | cons p rest ih =>
    obtain ⟨k3, v3⟩ := p
    by_cases hk : k = k3
    · subst hk
      simp [upsertKV, findKV, h]
    · by_cases hk2 : k2 = k3
      · simp [upsertKV, findKV, hk, hk2]
      · simp [upsertKV, findKV, hk, hk2, ih]

theorem findKV_upsertKV_cases {β : Type} {m : List (Nat × β)} {k : Nat} {v : β}
    {k2 : Nat} {w : β} (h : findKV (upsertKV m k v) k2 = some w) :
    w = v ∨ findKV m k2 = some w := by
  by_cases hk : k2 = k
  · subst hk
    rw [findKV_upsertKV_self] at h
    exact Or.inl (Option.some.inj h).symm
  · rw [findKV_upsertKV_ne m k v k2 hk] at h
    exact Or.inr h

theorem upsertKV_of_findKV {β : Type} {m : List (Nat × β)} {k : Nat} {v : β}
    (h : findKV m k = some v) : upsertKV m k v = m := by
  induction m with
  | nil => simp [findKV] at h
  | cons p rest ih =>
    obtain ⟨k2, v2⟩ := p
    by_cases hk : k = k2
    · subst hk
      simp only [findKV, if_pos rfl] at h
      simp [upsertKV, (Option.some.inj h).symm]
    · simp only [findKV, if_neg (by omega : ¬ k = k2)] at h
      simp [upsertKV, hk, ih h]

theorem isSome_findKV_upsertKV {β : Type} {m : List (Nat × β)} {k k2 : Nat} {v : β}
    (h : (findKV m k2).isSome) : (findKV (upsertKV m k v) k2).isSome := by
  by_cases hk : k2 = k
  · subst hk
    rw [findKV_upsertKV_self]
    rfl
  · rwa [findKV_upsertKV_ne m k v k2 hk]

/-- `Accounts::account` on a present client: no state change, returns the entry. -/
theorem Accounts.account_of_some {s : Accounts} {id : Nat} {a : Account}
    (h : findKV s.inner id = some a) : s.account id = (s, a) := by
  simp [Accounts.account, h]

/-- `Accounts::account` on an absent client: inserts the fresh zero account. -/
theorem Accounts.account_of_none {s : Accounts} {id : Nat}
    (h : findKV s.inner id = none) :
    s.account id = ({ s with inner := upsertKV s.inner id (Account.new id) },
      Account.new id) := by
  simp [Accounts.account, h]

theorem DMAX_pos : (0 : Int) < DMAX := by decide

section AccountLemmas

variable {a : Account} {amt : Int}

/-- `Account::deposit` succeeds when the grown total stays representable. -/
theorem Account.deposit_ok (htot : a.total = a.available + a.held)
    (hav : 0 ≤ a.available) (hh : 0 ≤ a.held) (h0 : 0 ≤ amt)
    (hfit : a.total + amt ≤ DMAX) :
    ∃ a2, a.deposit amt = (Except.ok (), a2) ∧
      a2.available = a.available + amt ∧ a2.held = a.held ∧
      a2.total = a.total + amt ∧ a2.locked = a.locked ∧ a2.client = a.client := by
  have hD := DMAX_pos
  have h1 : checked_add a.available amt = some (a.available + amt) :=
    checked_add_in (by omega) (by omega)
  have h2 : checked_add a.total amt = some (a.total + amt) :=
    checked_add_in (by omega) (by omega)
  refine ⟨{ a with available := a.available + amt, total := a.total + amt },
    ?_, rfl, rfl, rfl, rfl, rfl⟩
  simp [Account.deposit, h1, h2]

/-- `Account::deposit` reports `Overflow` when the grown total is too large. -/
theorem Account.deposit_err (htot : a.total = a.available + a.held)
    (hav : 0 ≤ a.available) (hh : 0 ≤ a.held) (h0 : 0 ≤ amt)
    (hbig : DMAX < a.total + amt) :
    ∃ a2, a.deposit amt = (Except.error Error.Overflow, a2) := by
  have hD := DMAX_pos
  by_cases hfit : a.available + amt ≤ DMAX
  · have h1 : checked_add a.available amt = some (a.available + amt) :=
      checked_add_in (by omega) (by omega)
    have h2 : checked_add a.total amt = none := by
      simp only [checked_add, inRange]
      simp only [Bool.and_eq_true, decide_eq_true_eq]
      rw [if_neg (by omega)]
    refine ⟨{ a with available := a.available + amt }, ?_⟩
    simp [Account.deposit, h1, h2]
  · have h1 : checked_add a.available amt = none := by
      simp only [checked_add, inRange]
      simp only [Bool.and_eq_true, decide_eq_true_eq]
      rw [if_neg (by omega)]
    refine ⟨a, ?_⟩
    simp [Account.deposit, h1]

/-- `Account::withdraw` fails with `InsufficientFunds`, untouched, when the
amount exceeds `available`. -/
theorem Account.withdraw_insufficient (hav : 0 ≤ a.available)
    (havd : a.available ≤ DMAX) (h1 : amt ≤ DMAX) (hlt : a.available < amt) :
    a.withdraw amt = (Except.error Error.InsufficientFunds, a) := by
  have hD := DMAX_pos
  have hs : checked_sub a.available amt = some (a.available - amt) :=
    checked_sub_in (by omega) (by omega)
  simp [Account.withdraw, hs]
  omega

/-- `Account::withdraw` succeeds when the amount is covered by `available`. -/
theorem Account.withdraw_ok (htot : a.total = a.available + a.held)
    (hh : 0 ≤ a.held) (hd : a.total ≤ DMAX) (h0 : 0 ≤ amt)
    (hle : amt ≤ a.available) :
    ∃ a2, a.withdraw amt = (Except.ok (), a2) ∧
      a2.available = a.available - amt ∧ a2.held = a.held ∧
      a2.total = a.total - amt ∧ a2.locked = a.locked ∧ a2.client = a.client := by
  have hD := DMAX_pos
  have h1 : checked_sub a.available amt = some (a.available - amt) :=
    checked_sub_in (by omega) (by omega)
  have h2 : checked_sub a.total amt = some (a.total - amt) :=
    checked_sub_in (by omega) (by omega)
  refine ⟨{ a with available := a.available - amt, total := a.total - amt },
    ?_, rfl, rfl, rfl, rfl, rfl⟩
  simp [Account.withdraw, h1, h2]
  omega

/-- `Account::withdraw_held` fails with `InsufficientFunds`, untouched, when
the amount exceeds `held`. -/
theorem Account.withdraw_held_insufficient (hh : 0 ≤ a.held)
    (hhd : a.held ≤ DMAX) (h1 : amt ≤ DMAX) (hlt : a.held < amt) :
    a.withdraw_held amt = (Except.error Error.InsufficientFunds, a) := by
  have hD := DMAX_pos
  have hs : checked_sub a.held amt = some (a.held - amt) :=
    checked_sub_in (by omega) (by omega)
  simp [Account.withdraw_held, hs]
  omega

/-- `Account::withdraw_held` succeeds when the amount is covered by `held`. -/
theorem Account.withdraw_held_ok (htot : a.total = a.available + a.held)
    (hav : 0 ≤ a.available) (hd : a.total ≤ DMAX) (h0 : 0 ≤ amt)
    (hle : amt ≤ a.held) :
    ∃ a2, a.withdraw_held amt = (Except.ok (), a2) ∧
      a2.available = a.available ∧ a2.held = a.held - amt ∧
      a2.total = a.total - amt ∧ a2.locked = a.locked ∧ a2.client = a.client := by
  have hD := DMAX_pos
  have h1 : checked_sub a.held amt = some (a.held - amt) :=
    checked_sub_in (by omega) (by omega)
  have h2 : checked_sub a.total amt = some (a.total - amt) :=
    checked_sub_in (by omega) (by omega)
  refine ⟨{ a with held := a.held - amt, total := a.total - amt },
    ?_, rfl, rfl, rfl, rfl, rfl⟩
  simp [Account.withdraw_held, h1, h2]
  omega

/-- `Account::dispute` fails with `InsufficientFunds`, untouched, when the
amount exceeds `available`. -/
theorem Account.dispute_insufficient (hav : 0 ≤ a.available)
    (havd : a.available ≤ DMAX) (h1 : amt ≤ DMAX) (hlt : a.available < amt) :
    a.dispute amt = (Except.error Error.InsufficientFunds, a) := by
  have hw := Account.withdraw_insufficient hav havd h1 hlt
  simp [Account.dispute, hw]

/-- `Account::dispute` moves the amount from `available` to `held` when
covered; `total` is unchanged. -/
theorem Account.dispute_ok (htot : a.total = a.available + a.held)
    (hh : 0 ≤ a.held) (hd : a.total ≤ DMAX) (h0 : 0 ≤ amt)
    (hle : amt ≤ a.available) :
    ∃ a2, a.dispute amt = (Except.ok (), a2) ∧
      a2.available = a.available - amt ∧ a2.held = a.held + amt ∧
      a2.total = a.total ∧ a2.locked = a.locked ∧ a2.client = a.client := by
  have hD := DMAX_pos
  obtain ⟨b, hb, hbav, hbh, hbt, hbl, hbc⟩ := Account.withdraw_ok htot hh hd h0 hle
  have h1 : checked_add b.held amt = some (b.held + amt) :=
    checked_add_in (by omega) (by omega)
  have h2 : checked_add b.total amt = some (b.total + amt) :=
    checked_add_in (by omega) (by omega)
  refine ⟨{ b with held := b.held + amt, total := b.total + amt },
    ?_, ?_, ?_, ?_, ?_, ?_⟩
  · simp [Account.dispute, hb, Account.hold, h1, h2]
  · simp only [hbav]
  · simp only []
    omega
  · simp only []
    omega
  · simp only [hbl]
  · simp only [hbc]

/-- `Account::resolve` fails with `InsufficientFunds`, untouched, when the
amount exceeds `held`. -/
theorem Account.resolve_insufficient (hh : 0 ≤ a.held) (hhd : a.held ≤ DMAX)
    (h1 : amt ≤ DMAX) (hlt : a.held < amt) :
    a.resolve amt = (Except.error Error.InsufficientFunds, a) := by
  have hw := Account.withdraw_held_insufficient hh hhd h1 hlt
  simp [Account.resolve, hw]

/-- `Account::resolve` moves the amount from `held` back to `available` when
covered; `total` is unchanged. -/
theorem Account.resolve_ok (htot : a.total = a.available + a.held)
    (hav : 0 ≤ a.available) (hd : a.total ≤ DMAX) (h0 : 0 ≤ amt)
    (hle : amt ≤ a.held) :
    ∃ a2, a.resolve amt = (Except.ok (), a2) ∧
      a2.available = a.available + amt ∧ a2.held = a.held - amt ∧
      a2.total = a.total ∧ a2.locked = a.locked ∧ a2.client = a.client := by
  have hD := DMAX_pos
  obtain ⟨b, hb, hbav, hbh, hbt, hbl, hbc⟩ :=
    Account.withdraw_held_ok htot hav hd h0 hle
  have h1 : checked_add b.available amt = some (b.available + amt) :=
    checked_add_in (by omega) (by omega)
  have h2 : checked_add b.total amt = some (b.total + amt) :=
    checked_add_in (by omega) (by omega)
  refine ⟨{ b with available := b.available + amt, total := b.total + amt },
    ?_, ?_, ?_, ?_, ?_, ?_⟩
  · simp [Account.resolve, hb, Account.deposit, h1, h2]
  · simp only []
    omega
  · simp only [hbh]
  · simp only []
    omega
  · simp only [hbl]
  · simp only [hbc]

/-- `Account::chargeback` fails with `InsufficientFunds`, untouched, when the
amount exceeds `held`. -/
theorem Account.chargeback_insufficient (hh : 0 ≤ a.held) (hhd : a.held ≤ DMAX)
    (h1 : amt ≤ DMAX) (hlt : a.held < amt) :
    a.chargeback amt = (Except.error Error.InsufficientFunds, a) := by
  have hw := Account.withdraw_held_insufficient hh hhd h1 hlt
  simp [Account.chargeback, hw]

/-- `Account::chargeback` removes the amount from `held` and `total` and sets
`locked` when covered. -/
theorem Account.chargeback_ok (htot : a.total = a.available + a.held)
    (hav : 0 ≤ a.available) (hd : a.total ≤ DMAX) (h0 : 0 ≤ amt)
    (hle : amt ≤ a.held) :
    ∃ a2, a.chargeback amt = (Except.ok (), a2) ∧
      a2.available = a.available ∧ a2.held = a.held - amt ∧
      a2.total = a.total - amt ∧ a2.locked = true ∧ a2.client = a.client := by
  obtain ⟨b, hb, hbav, hbh, hbt, hbl, hbc⟩ :=
    Account.withdraw_held_ok htot hav hd h0 hle
  refine ⟨{ b with locked := true }, ?_, ?_, ?_, ?_, rfl, ?_⟩
  · simp [Account.chargeback, hb]
  · simp only [hbav]
  · simp only [hbh]
  · simp only [hbt]
  · simp only [hbc]

end AccountLemmas

theorem Accounts.inv_new : Accounts.new.inv := by
  constructor
  · intro c a h
    simp [Accounts.new, findKV] at h
  · intro i t h
    simp [Accounts.new, findKV] at h

theorem Account.new_inv (id : Nat) : (Account.new id).inv := by
  refine ⟨rfl, le_refl 0, le_refl 0, le_of_lt DMAX_pos⟩

theorem Accounts.inv_update_account {s : Accounts} (hs : s.inv) {a : Account}
    (ha : a.inv) : (s.update_account a).inv := by
  refine ⟨?_, hs.2⟩
  intro c b h
  simp only [Accounts.update_account] at h
  rcases findKV_upsertKV_cases h with hb | hb
  · exact hb ▸ ha
  · exact hs.1 c b hb

theorem Accounts.inv_update_tx {s : Accounts} (hs : s.inv) {t : Transaction}
    (ht : 0 ≤ t.amount ∧ t.amount ≤ DMAX) : (s.update_transaction t).inv := by
  refine ⟨hs.1, ?_⟩
  intro i u h
  simp only [Accounts.update_transaction] at h
  rcases findKV_upsertKV_cases h with hu | hu
  · exact hu ▸ ht
  · exact hs.2 i u hu

theorem Accounts.account_inv {s : Accounts} (hs : s.inv) (id : Nat) :
    (s.account id).1.inv ∧ Account.inv (s.account id).2 := by
  cases h : findKV s.inner id with
  | some a =>
    rw [Accounts.account_of_some h]
    exact ⟨hs, hs.1 id a h⟩
  | none =>
    rw [Accounts.account_of_none h]
    refine ⟨⟨?_, hs.2⟩, Account.new_inv id⟩
    intro c b hb
    simp only at hb
    rcases findKV_upsertKV_cases hb with hb2 | hb2
    · exact hb2 ▸ Account.new_inv id
    · exact hs.1 c b hb2

theorem Accounts.deposit_inv {s : Accounts} (hs : s.inv) {c : Nat} {amt : Int}
    {t : Nat} (h0 : 0 ≤ amt) (h1 : amt ≤ DMAX) : (s.deposit c amt t).2.inv := by
  by_cases htx : (s.transaction t).isSome
  · simpa [Accounts.deposit, htx] using hs
  · obtain ⟨hs1, hainv⟩ := Accounts.account_inv hs c
    obtain ⟨htot, hav, hh, hd⟩ := hainv
    by_cases hfr : (s.account c).2.frozen
    · simpa [Accounts.deposit, htx, hfr] using hs1
    · by_cases hfit : (s.account c).2.total + amt ≤ DMAX
      · obtain ⟨a2, hok, hf1, hf2, hf3, hf4, hf5⟩ :=
          Account.deposit_ok htot hav hh h0 hfit
        have ha2 : a2.inv := by
          refine ⟨by omega, by omega, by omega, by omega⟩
        simp only [Accounts.deposit, htx, Bool.false_eq_true, if_false, hfr,
          if_false, hok]
        exact Accounts.inv_update_tx
          (Accounts.inv_update_account hs1 ha2) ⟨h0, h1⟩
      · obtain ⟨a2, herr⟩ := Account.deposit_err htot hav hh h0 (by omega)
        simpa [Accounts.deposit, htx, hfr, herr] using hs1

theorem Accounts.withdraw_inv {s : Accounts} (hs : s.inv) {c : Nat} {amt : Int}
    {t : Nat} (h0 : 0 ≤ amt) (h1 : amt ≤ DMAX) : (s.withdraw c amt t).2.inv := by
  by_cases htx : (s.transaction t).isSome
  · simpa [Accounts.withdraw, htx] using hs
  · obtain ⟨hs1, hainv⟩ := Accounts.account_inv hs c
    obtain ⟨htot, hav, hh, hd⟩ := hainv
    by_cases hfr : (s.account c).2.frozen
    · simpa [Accounts.withdraw, htx, hfr] using hs1
    · by_cases hcov : amt ≤ (s.account c).2.available
      · obtain ⟨a2, hok, hf1, hf2, hf3, hf4, hf5⟩ :=
          Account.withdraw_ok htot hh hd h0 hcov
        have ha2 : a2.inv := by
          refine ⟨by omega, by omega, by omega, by omega⟩
        simp only [Accounts.withdraw, htx, Bool.false_eq_true, if_false, hfr,
          if_false, hok]
        exact Accounts.inv_update_tx
          (Accounts.inv_update_account hs1 ha2) ⟨h0, h1⟩
      · have herr := Account.withdraw_insufficient hav (by omega) h1 (by omega)
        simpa [Accounts.withdraw, htx, hfr, herr] using hs1

theorem Accounts.dispute_inv {s : Accounts} (hs : s.inv) {c t : Nat} :
    (s.dispute c t).2.inv := by
  cases htx : s.transaction t with
  | none => simpa [Accounts.dispute, htx] using hs
  | some tr =>
    obtain ⟨h0, h1⟩ := hs.2 t tr htx
    obtain ⟨hs1, hainv⟩ := Accounts.account_inv hs c
    have htot := hainv.1
    have hav := hainv.2.1
    have hh := hainv.2.2.1
    have hd := hainv.2.2.2
    by_cases hfr : (s.account c).2.frozen
    · simpa [Accounts.dispute, htx, hfr] using hs1
    · cases hst : tr.status with
      | Open =>
        by_cases hcov : tr.amount ≤ (s.account c).2.available
        · obtain ⟨a2, hok, hf1, hf2, hf3, hf4, hf5⟩ :=
            Account.dispute_ok htot hh hd h0 hcov
          have ha2 : a2.inv := ⟨by omega, by omega, by omega, by omega⟩
          simp only [Accounts.dispute, htx, hfr, Bool.false_eq_true, if_false,
            hst, hok]
          exact Accounts.inv_update_account
            (@Accounts.inv_update_tx _ hs1 { tr with status := Status.Pending } ⟨h0, h1⟩) ha2
        · have herr := Account.dispute_insufficient hav (by omega) h1 (by omega)
          simpa [Accounts.dispute, htx, hfr, hst, herr] using hs1
      | Pending =>
        simp only [Accounts.dispute, htx, hfr, Bool.false_eq_true, if_false, hst]
        exact Accounts.inv_update_account hs1 hainv
      | Resolved =>
        simp only [Accounts.dispute, htx, hfr, Bool.false_eq_true, if_false, hst]
        exact Accounts.inv_update_account hs1 hainv
      | Chargeback =>
        simp only [Accounts.dispute, htx, hfr, Bool.false_eq_true, if_false, hst]
        exact Accounts.inv_update_account hs1 hainv

theorem Accounts.resolve_inv {s : Accounts} (hs : s.inv) {c t : Nat} :
    (s.resolve c t).2.inv := by
  cases htx : s.transaction t with
  | none => simpa [Accounts.resolve, htx] using hs
  | some tr =>
    obtain ⟨h0, h1⟩ := hs.2 t tr htx
    obtain ⟨hs1, hainv⟩ := Accounts.account_inv hs c
    have htot := hainv.1
    have hav := hainv.2.1
    have hh := hainv.2.2.1
    have hd := hainv.2.2.2
    by_cases hfr : (s.account c).2.frozen
    · simpa [Accounts.resolve, htx, hfr] using hs1
    · cases hst : tr.status with
      | Pending =>
        by_cases hcov : tr.amount ≤ (s.account c).2.held
        · obtain ⟨a2, hok, hf1, hf2, hf3, hf4, hf5⟩ :=
            Account.resolve_ok htot hav hd h0 hcov
          have ha2 : a2.inv := ⟨by omega, by omega, by omega, by omega⟩
          simp only [Accounts.resolve, htx, hfr, Bool.false_eq_true, if_false,
            hst, hok]
          exact Accounts.inv_update_account
            (@Accounts.inv_update_tx _ hs1 { tr with status := Status.Resolved } ⟨h0, h1⟩) ha2
        · have herr := Account.resolve_insufficient hh (by omega) h1 (by omega)
          simpa [Accounts.resolve, htx, hfr, hst, herr] using hs1
      | Open =>
        simp only [Accounts.resolve, htx, hfr, Bool.false_eq_true, if_false, hst]
        exact Accounts.inv_update_account hs1 hainv
      | Resolved =>
        simp only [Accounts.resolve, htx, hfr, Bool.false_eq_true, if_false, hst]
        exact Accounts.inv_update_account hs1 hainv
      | Chargeback =>
        simp only [Accounts.resolve, htx, hfr, Bool.false_eq_true, if_false, hst]
        exact Accounts.inv_update_account hs1 hainv

theorem Accounts.chargeback_inv {s : Accounts} (hs : s.inv) {c t : Nat} :
    (s.chargeback c t).2.inv := by
  cases htx : s.transaction t with
  | none => simpa [Accounts.chargeback, htx] using hs
  | some tr =>
    obtain ⟨h0, h1⟩ := hs.2 t tr htx
    obtain ⟨hs1, hainv⟩ := Accounts.account_inv hs c
    have htot := hainv.1
    have hav := hainv.2.1
    have hh := hainv.2.2.1
    have hd := hainv.2.2.2
    by_cases hfr : (s.account c).2.frozen
    · simpa [Accounts.chargeback, htx, hfr] using hs1
    · cases hst : tr.status with
      | Pending =>
        by_cases hcov : tr.amount ≤ (s.account c).2.held
        · obtain ⟨a2, hok, hf1, hf2, hf3, hf4, hf5⟩ :=
            Account.chargeback_ok htot hav hd h0 hcov
          have ha2 : a2.inv := ⟨by omega, by omega, by omega, by omega⟩
          simp only [Accounts.chargeback, htx, hfr, Bool.false_eq_true, if_false,
            hst, hok]
          exact Accounts.inv_update_account
            (@Accounts.inv_update_tx _ hs1 { tr with status := Status.Chargeback } ⟨h0, h1⟩) ha2
        · have herr :=
            Account.chargeback_insufficient hh (by omega) h1 (by omega)
          simpa [Accounts.chargeback, htx, hfr, hst, herr] using hs1
      | Open =>
        simp only [Accounts.chargeback, htx, hfr, Bool.false_eq_true, if_false,
          hst]
        exact Accounts.inv_update_account hs1 hainv
      | Resolved =>
        simp only [Accounts.chargeback, htx, hfr, Bool.false_eq_true, if_false,
          hst]
        exact Accounts.inv_update_account hs1 hainv
      | Chargeback =>
        simp only [Accounts.chargeback, htx, hfr, Bool.false_eq_true, if_false,
          hst]
        exact Accounts.inv_update_account hs1 hainv

theorem applyEvent_inv {s : Accounts} (hs : s.inv) {e : Event}
    (hv : e.validB = true) : (applyEvent s e).inv := by
  cases e with
  | deposit c a t =>
    simp only [Event.validB, Bool.and_eq_true, decide_eq_true_eq] at hv
    exact Accounts.deposit_inv hs hv.1 hv.2
  | withdrawal c a t =>
    simp only [Event.validB, Bool.and_eq_true, decide_eq_true_eq] at hv
    exact Accounts.withdraw_inv hs hv.1 hv.2
  | dispute c t => exact Accounts.dispute_inv hs
  | resolve c t => exact Accounts.resolve_inv hs
  | chargeback c t => exact Accounts.chargeback_inv hs

theorem runEvents_inv (es : List Event) (hv : es.all Event.validB = true) :
    (runEvents es).inv := by
  suffices h : ∀ s : Accounts, s.inv → (es.foldl applyEvent s).inv by
    exact h Accounts.new Accounts.inv_new
  induction es with
  | nil => intro s hs; exact hs
  | cons e rest ih =>
    intro s hs
    simp only [List.all_cons, Bool.and_eq_true] at hv
    exact ih hv.2 (applyEvent s e) (applyEvent_inv hs hv.1)

/-- Two accounts with equal fields are equal. -/
theorem Account.eq_of_fields {x y : Account} (h1 : x.client = y.client)
    (h2 : x.available = y.available) (h3 : x.held = y.held)
    (h4 : x.total = y.total) (h5 : x.locked = y.locked) : x = y := by
  cases x
  cases y
  simp_all

/-- After `Accounts::account(c)`, client `c` is present in the account map. -/
theorem Accounts.account_mem (s : Accounts) (c : Nat) :
    (findKV (s.account c).1.inner c).isSome := by
  cases h : findKV s.inner c with
  | some a =>
    rw [Accounts.account_of_some h]
    simp [h]
  | none =>
    rw [Accounts.account_of_none h]
    simp [findKV_upsertKV_self]

/-- Rewriting an account map entry with its current value is the identity. -/
theorem Accounts.update_account_self {s : Accounts} {a : Account}
    (h : findKV s.inner a.client = some a) : s.update_account a = s := by
  simp [Accounts.update_account, upsertKV_of_findKV h]

/-- `Account::deposit` either succeeds or reports `Overflow`. -/
theorem Account.deposit_fst (a : Account) (amt : Int) :
    (a.deposit amt).1 = Except.ok () ∨
    (a.deposit amt).1 = Except.error Error.Overflow := by
  unfold Account.deposit
  cases h : checked_add a.available amt with
  | none => simp
  | some v =>
    cases h2 : checked_add ({ a with available := v } : Account).total amt with
    | none => simp [h2]
    | some w => simp [h2]

/-- `Account::withdraw` succeeds or reports `Overflow` or `InsufficientFunds`. -/
theorem Account.withdraw_fst (a : Account) (amt : Int) :
    (a.withdraw amt).1 = Except.ok () ∨
    (a.withdraw amt).1 = Except.error Error.Overflow ∨
    (a.withdraw amt).1 = Except.error Error.InsufficientFunds := by
  unfold Account.withdraw
  cases h : checked_sub a.available amt with
  | none => simp
  | some v =>
    by_cases hv : v < 0
    · simp [hv]
    · cases h2 : checked_sub ({ a with available := v } : Account).total amt with
      | none => simp [hv, h2]
      | some w => simp [hv, h2]

/-- A deposit with a fresh transaction id leaves the referenced client present
in the account map, on every control path. -/
theorem Accounts.deposit_keeps_client {s : Accounts} {c t : Nat} {amt : Int}
    (ht : findKV s.transactions t = none) :
    (findKV (s.deposit c amt t).2.inner c).isSome := by
  have hmem := Accounts.account_mem s c
  simp only [Accounts.deposit, Accounts.transaction, ht, Option.isSome_none,
    Bool.false_eq_true, if_false]
  by_cases hfr : (s.account c).2.frozen
  · simpa [hfr] using hmem
  · simp only [hfr, Bool.false_eq_true, if_false]
    rcases hda : (s.account c).2.deposit amt with ⟨fst, a2⟩
    cases fst with
    | error e => simpa using hmem
    | ok u =>
      simp only [Accounts.update_transaction, Accounts.update_account]
      exact isSome_findKV_upsertKV hmem

/-- A withdrawal with a fresh transaction id leaves the referenced client
present in the account map, on every control path. -/
theorem Accounts.withdraw_keeps_client {s : Accounts} {c t : Nat} {amt : Int}
    (ht : findKV s.transactions t = none) :
    (findKV (s.withdraw c amt t).2.inner c).isSome := by
  have hmem := Accounts.account_mem s c
  simp only [Accounts.withdraw, Accounts.transaction, ht, Option.isSome_none,
    Bool.false_eq_true, if_false]
  by_cases hfr : (s.account c).2.frozen
  · simpa [hfr] using hmem
  · simp only [hfr, Bool.false_eq_true, if_false]
    rcases hda : (s.account c).2.withdraw amt with ⟨fst, a2⟩
    cases fst with
    | error e => simpa using hmem
    | ok u =>
      simp only [Accounts.update_transaction, Accounts.update_account]
      exact isSome_findKV_upsertKV hmem

/-- A dispute with a known transaction id leaves the referenced client present
in the account map, on every control path. -/
theorem Accounts.dispute_keeps_client {s : Accounts} {c t : Nat}
    {tr : Transaction} (ht : findKV s.transactions t = some tr) :
    (findKV (s.dispute c t).2.inner c).isSome := by
  have hmem := Accounts.account_mem s c
  simp only [Accounts.dispute, Accounts.transaction, ht]
  by_cases hfr : (s.account c).2.frozen
  · simpa [hfr] using hmem
  · simp only [hfr, Bool.false_eq_true, if_false]
    cases hst : tr.status with
    | Open =>
      rcases hda : (s.account c).2.dispute tr.amount with ⟨fst, a2⟩
      cases fst with
      | error e =>
        cases e with
        | InsufficientFunds => simpa using hmem
        | InvalidData =>
          simp only [Accounts.update_transaction, Accounts.update_account]
          exact isSome_findKV_upsertKV hmem
        | Overflow =>
          simp only [Accounts.update_transaction, Accounts.update_account]
          exact isSome_findKV_upsertKV hmem
        | TxExists =>
          simp only [Accounts.update_transaction, Accounts.update_account]
          exact isSome_findKV_upsertKV hmem
      | ok u =>
        simp only [Accounts.update_transaction, Accounts.update_account]
        exact isSome_findKV_upsertKV hmem
    | Pending =>
      simp only [Accounts.update_account]
      exact isSome_findKV_upsertKV hmem
    | Resolved =>
      simp only [Accounts.update_account]
      exact isSome_findKV_upsertKV hmem
    | Chargeback =>
      simp only [Accounts.update_account]
      exact isSome_findKV_upsertKV hmem

/-- A resolve with a known transaction id leaves the referenced client present
in the account map, on every control path. -/
theorem Accounts.resolve_keeps_client {s : Accounts} {c t : Nat}
    {tr : Transaction} (ht : findKV s.transactions t = some tr) :
    (findKV (s.resolve c t).2.inner c).isSome := by
  have hmem := Accounts.account_mem s c
  simp only [Accounts.resolve, Accounts.transaction, ht]
  by_cases hfr : (s.account c).2.frozen
  · simpa [hfr] using hmem
  · simp only [hfr, Bool.false_eq_true, if_false]
    cases hst : tr.status with
    | Pending =>
      rcases hda : (s.account c).2.resolve tr.amount with ⟨fst, a2⟩
      cases fst with
      | error e =>
        cases e with
        | InsufficientFunds => simpa using hmem
        | InvalidData =>
          simp only [Accounts.update_transaction, Accounts.update_account]
          exact isSome_findKV_upsertKV hmem
        | Overflow =>
          simp only [Accounts.update_transaction, Accounts.update_account]
          exact isSome_findKV_upsertKV hmem
        | TxExists =>
          simp only [Accounts.update_transaction, Accounts.update_account]
          exact isSome_findKV_upsertKV hmem
      | ok u =>
        simp only [Accounts.update_transaction, Accounts.update_account]
        exact isSome_findKV_upsertKV hmem
    | Open =>
      simp only [Accounts.update_account]
      exact isSome_findKV_upsertKV hmem
    | Resolved =>
      simp only [Accounts.update_account]
      exact isSome_findKV_upsertKV hmem
    | Chargeback =>
      simp only [Accounts.update_account]
      exact isSome_findKV_upsertKV hmem

/-- A chargeback with a known transaction id leaves the referenced client
present in the account map, on every control path. -/
theorem Accounts.chargeback_keeps_client {s : Accounts} {c t : Nat}
    {tr : Transaction} (ht : findKV s.transactions t = some tr) :
    (findKV (s.chargeback c t).2.inner c).isSome := by
  have hmem := Accounts.account_mem s c
  simp only [Accounts.chargeback, Accounts.transaction, ht]
  by_cases hfr : (s.account c).2.frozen
  · simpa [hfr] using hmem
  · simp only [hfr, Bool.false_eq_true, if_false]
    cases hst : tr.status with
    | Pending =>
      rcases hda : (s.account c).2.chargeback tr.amount with ⟨fst, a2⟩
      cases fst with
      | error e =>
        cases e with
        | InsufficientFunds => simpa using hmem
        | InvalidData =>
          simp only [Accounts.update_transaction, Accounts.update_account]
          exact isSome_findKV_upsertKV hmem
        | Overflow =>
          simp only [Accounts.update_transaction, Accounts.update_account]
          exact isSome_findKV_upsertKV hmem
        | TxExists =>
          simp only [Accounts.update_transaction, Accounts.update_account]
          exact isSome_findKV_upsertKV hmem
      | ok u =>
        simp only [Accounts.update_transaction, Accounts.update_account]
        exact isSome_findKV_upsertKV hmem
    | Open =>
      simp only [Accounts.update_account]
      exact isSome_findKV_upsertKV hmem
    | Resolved =>
      simp only [Accounts.update_account]
      exact isSome_findKV_upsertKV hmem
    | Chargeback =>
      simp only [Accounts.update_account]
      exact isSome_findKV_upsertKV hmem

/-! ## Claims -/

/-- C1: for every account in the ledger and after every sequence of public
ledger operations (deposit, withdraw, dispute, resolve, chargeback) driven by
events satisfying the Record Source boundary contract (non-negative
representable amounts, spec §6), the account satisfies
`total = available + held`, `available ≥ 0` and `held ≥ 0`. -/
theorem ledger_balance_invariant (es : List Event)
    (hv : es.all Event.validB = true) (c : Nat) (a : Account)
    (h : findKV (runEvents es).inner c = some a) :
    a.total = a.available + a.held ∧ 0 ≤ a.available ∧ 0 ≤ a.held := by
  have hinv := (runEvents_inv es hv).1 c a h
  exact ⟨hinv.1, hinv.2.1, hinv.2.2.1⟩

/-- Witness for C1: a concrete deposit/dispute/withdrawal log and the account
it produces. -/
theorem ledger_balance_invariant_witness :
    (([Event.deposit 1 100 61, Event.deposit 1 120 64, Event.dispute 1 61,
        Event.withdrawal 1 50 65].all Event.validB) = true) ∧
    (findKV (runEvents [Event.deposit 1 100 61, Event.deposit 1 120 64,
        Event.dispute 1 61, Event.withdrawal 1 50 65]).inner 1 =
      some ⟨1, 70, 100, 170, false⟩) ∧
    ((⟨1, 70, 100, 170, false⟩ : Account).total =
        (⟨1, 70, 100, 170, false⟩ : Account).available +
          (⟨1, 70, 100, 170, false⟩ : Account).held ∧
      0 ≤ (⟨1, 70, 100, 170, false⟩ : Account).available ∧
      0 ≤ (⟨1, 70, 100, 170, false⟩ : Account).held) :=
  ⟨by decide, by decide,
    ledger_balance_invariant
      [Event.deposit 1 100 61, Event.deposit 1 120 64, Event.dispute 1 61,
        Event.withdrawal 1 50 65] (by decide) 1 ⟨1, 70, 100, 170, false⟩
      (by decide)⟩

/-- C2 (code bug): after `Deposit(2, -DMAX, 9)` and `Deposit(1, DMAX, 1)` —
both accepted, since the core never checks amounts for sign — the call
`Dispute(1, 9)` makes `Account::dispute` fail with `Overflow`
(`available - amount = 2·DMAX` is unrepresentable), but the ledger operation
swallows the error: it returns `Ok`, still marks transaction 9 `Pending`, and
changes the ledger state, where the claim requires `Overflow` to be returned
to the caller with the state left exactly as before. -/
theorem dispute_swallows_overflow_bug :
    ((runEvents [Event.deposit 2 (-DMAX) 9, Event.deposit 1 DMAX 1]).dispute
        1 9).1 = Except.ok () ∧
    (findKV ((runEvents [Event.deposit 2 (-DMAX) 9,
        Event.deposit 1 DMAX 1]).dispute 1 9).2.transactions 9 =
      some ⟨9, -DMAX, Status.Pending⟩) ∧
    ((runEvents [Event.deposit 2 (-DMAX) 9, Event.deposit 1 DMAX 1]).dispute
        1 9).2 ≠ runEvents [Event.deposit 2 (-DMAX) 9, Event.deposit 1 DMAX 1] ∧
    (Account.dispute ⟨1, DMAX, 0, DMAX, false⟩ (-DMAX)).1 =
      Except.error Error.Overflow := by
  refine ⟨by decide, by decide, by decide, by decide⟩

/-- C3 counterexample: `Account::deposit(1)` on the account
`available = 0, held = total = DMAX` fails with `Overflow`, yet the failing
call has mutated `available` to 1 — the claim says no field is mutated. -/
theorem deposit_overflow_mutates_available :
    (Account.deposit ⟨1, 0, DMAX, DMAX, false⟩ 1).1 =
      Except.error Error.Overflow ∧
    (Account.deposit ⟨1, 0, DMAX, DMAX, false⟩ 1).2.available = 1 ∧
    (Account.deposit ⟨1, 0, DMAX, DMAX, false⟩ 1).2.available ≠
      (⟨1, 0, DMAX, DMAX, false⟩ : Account).available := by
  refine ⟨by decide, by decide, by decide⟩

/-- C3 (amended): if `Account::deposit(amount)` fails with `Overflow`, then
`held`, `total`, `locked` and `client` are unchanged, and `available` is
unchanged when the addition to `available` itself overflows; but when only
the addition to `total` overflows, `available` has already been set to
`available + amount` by the failing call. -/
theorem deposit_overflow_partial_mutation (a : Account) (amt : Int)
    (h : (a.deposit amt).1 = Except.error Error.Overflow) :
    (a.deposit amt).2.held = a.held ∧ (a.deposit amt).2.total = a.total ∧
    (a.deposit amt).2.locked = a.locked ∧
    (a.deposit amt).2.client = a.client ∧
    (checked_add a.available amt = none → (a.deposit amt).2 = a) ∧
    (∀ v, checked_add a.available amt = some v →
      (a.deposit amt).2.available = v) := by
  cases hc : checked_add a.available amt with
  | none =>
    simp [Account.deposit, hc]
  | some v =>
    cases hc2 : checked_add a.total amt with
    | none =>
      simp [Account.deposit, hc, hc2]
    | some w =>
      simp [Account.deposit, hc, hc2] at h

/-- Witness for the amended C3 at the counterexample input. -/
theorem deposit_overflow_partial_mutation_witness :
    ((Account.deposit ⟨1, 0, DMAX, DMAX, false⟩ 1).1 =
      Except.error Error.Overflow) ∧
    ((Account.deposit ⟨1, 0, DMAX, DMAX, false⟩ 1).2.held =
        (⟨1, 0, DMAX, DMAX, false⟩ : Account).held ∧
      (Account.deposit ⟨1, 0, DMAX, DMAX, false⟩ 1).2.total =
        (⟨1, 0, DMAX, DMAX, false⟩ : Account).total ∧
      (Account.deposit ⟨1, 0, DMAX, DMAX, false⟩ 1).2.locked =
        (⟨1, 0, DMAX, DMAX, false⟩ : Account).locked ∧
      (Account.deposit ⟨1, 0, DMAX, DMAX, false⟩ 1).2.client =
        (⟨1, 0, DMAX, DMAX, false⟩ : Account).client ∧
      (checked_add (⟨1, 0, DMAX, DMAX, false⟩ : Account).available 1 = none →
        (Account.deposit ⟨1, 0, DMAX, DMAX, false⟩ 1).2 =
          ⟨1, 0, DMAX, DMAX, false⟩) ∧
      (∀ v, checked_add (⟨1, 0, DMAX, DMAX, false⟩ : Account).available 1 =
          some v →
        (Account.deposit ⟨1, 0, DMAX, DMAX, false⟩ 1).2.available = v)) :=
  ⟨by decide, deposit_overflow_partial_mutation ⟨1, 0, DMAX, DMAX, false⟩ 1
    (by decide)⟩

/-- C4 counterexample: a Dispute referencing client 1 and an unknown
transaction id, applied to the empty ledger, is a successful no-op that
creates no account for client 1 — the claim says an account exists after the
first event of any kind referencing the client id, no-ops included. -/
theorem dispute_unknown_tx_creates_no_account :
    (Accounts.new.dispute 1 5).1 = Except.ok () ∧
    (Accounts.new.dispute 1 5).2 = Accounts.new ∧
    findKV (Accounts.new.dispute 1 5).2.inner 1 = none := by
  refine ⟨by decide, by decide, by decide⟩

/-- C4 (amended): an account for the referenced client id exists after every
Deposit or Withdrawal carrying a fresh transaction id and after every
Dispute, Resolve or Chargeback referencing a known transaction id — including
calls that fail (Overflow, InsufficientFunds) or are no-ops (frozen account,
non-matching status); events rejected with `TxExists` or referencing an
unknown transaction return before the account-creation step. -/
theorem account_exists_after_reaching_event (s : Accounts) (c : Nat)
    (amt : Int) (t : Nat) :
    (findKV s.transactions t = none →
      (findKV (s.deposit c amt t).2.inner c).isSome ∧
      (findKV (s.withdraw c amt t).2.inner c).isSome) ∧
    (∀ tr, findKV s.transactions t = some tr →
      (findKV (s.dispute c t).2.inner c).isSome ∧
      (findKV (s.resolve c t).2.inner c).isSome ∧
      (findKV (s.chargeback c t).2.inner c).isSome) := by
  constructor
  · intro ht
    exact ⟨Accounts.deposit_keeps_client ht, Accounts.withdraw_keeps_client ht⟩
  · intro tr ht
    exact ⟨Accounts.dispute_keeps_client ht, Accounts.resolve_keeps_client ht,
      Accounts.chargeback_keeps_client ht⟩

/-- Witness for the amended C4: on the empty ledger, transaction id 5 is
fresh, and after `Deposit(3, 10, 5)` and after `Withdrawal(3, 10, 5)` —
the latter failing with `InsufficientFunds` — client 3 has an account. -/
theorem account_exists_after_reaching_event_witness :
    findKV Accounts.new.transactions 5 = none ∧
    (findKV (Accounts.new.deposit 3 10 5).2.inner 3).isSome ∧
    (findKV (Accounts.new.withdraw 3 10 5).2.inner 3).isSome :=
  ⟨by decide,
    ((account_exists_after_reaching_event Accounts.new 3 10 5).1
      (by decide)).1,
    ((account_exists_after_reaching_event Accounts.new 3 10 5).1
      (by decide)).2⟩

/-- C5: a Deposit or Withdrawal whose transaction id is already present in
the transaction table fails with `TxExists` and returns the ledger state
unchanged — in particular the account map and the previously recorded
`Transaction` are exactly as before. -/
theorem duplicate_tx_rejected (s : Accounts) (c : Nat) (amt : Int) (t : Nat)
    (tr : Transaction) (h : findKV s.transactions t = some tr) :
    s.deposit c amt t = (Except.error Error.TxExists, s) ∧
    s.withdraw c amt t = (Except.error Error.TxExists, s) := by
  constructor
  · simp [Accounts.deposit, Accounts.transaction, h]
  · simp [Accounts.withdraw, Accounts.transaction, h]

/-- Witness for C5: reusing transaction id 7 after `Deposit(1, 5, 7)`. -/
theorem duplicate_tx_rejected_witness :
    (findKV (runEvents [Event.deposit 1 5 7]).transactions 7 =
      some ⟨7, 5, Status.Open⟩) ∧
    ((runEvents [Event.deposit 1 5 7]).deposit 2 10 7 =
        (Except.error Error.TxExists, runEvents [Event.deposit 1 5 7]) ∧
      (runEvents [Event.deposit 1 5 7]).withdraw 2 10 7 =
        (Except.error Error.TxExists, runEvents [Event.deposit 1 5 7])) :=
  ⟨by decide,
    duplicate_tx_rejected (runEvents [Event.deposit 1 5 7]) 2 10 7
      ⟨7, 5, Status.Open⟩ (by decide)⟩

/-- C6: a Withdrawal on an existing non-frozen account, carrying a fresh
transaction id and an amount exceeding the account's `available` balance,
returns `InsufficientFunds` to the caller and leaves the ledger state — in
particular the account's available, held and total balances — unchanged.
The bound hypotheses state that the balance and the amount are representable
decimal values. -/
theorem withdrawal_insufficient_funds_propagated (s : Accounts) (c : Nat)
    (amt : Int) (t : Nat) (a : Account) (ht : findKV s.transactions t = none)
    (ha : findKV s.inner c = some a) (hfr : a.locked = false)
    (hav : 0 ≤ a.available) (havd : a.available ≤ DMAX) (hamt : amt ≤ DMAX)
    (hlt : a.available < amt) :
    s.withdraw c amt t = (Except.error Error.InsufficientFunds, s) := by
  have hacc := Accounts.account_of_some ha
  have herr := Account.withdraw_insufficient hav havd hamt hlt
  simp [Accounts.withdraw, Accounts.transaction, ht, hacc, Account.frozen,
    hfr, herr]

/-- Witness for C6: spec §8 scenario 2 — after `Deposit(1, 200, 61)` and
`Withdrawal(1, 150, 65)`, the call `Withdrawal(1, 500, 66)` fails with
`InsufficientFunds` and `available(1)` stays 50. -/
theorem withdrawal_insufficient_funds_propagated_witness :
    (findKV (runEvents [Event.deposit 1 200 61,
        Event.withdrawal 1 150 65]).transactions 66 = none ∧
      findKV (runEvents [Event.deposit 1 200 61,
        Event.withdrawal 1 150 65]).inner 1 = some ⟨1, 50, 0, 50, false⟩) ∧
    (runEvents [Event.deposit 1 200 61, Event.withdrawal 1 150 65]).withdraw
        1 500 66 =
      (Except.error Error.InsufficientFunds,
        runEvents [Event.deposit 1 200 61, Event.withdrawal 1 150 65]) :=
  ⟨⟨by decide, by decide⟩,
    withdrawal_insufficient_funds_propagated
      (runEvents [Event.deposit 1 200 61, Event.withdrawal 1 150 65]) 1 500 66
      ⟨1, 50, 0, 50, false⟩ (by decide) (by decide) (by decide) (by decide)
      (by decide) (by decide) (by decide)⟩

/-- C7: transaction status only moves along Open → Pending → {Resolved,
Chargeback}: on an existing account, a Dispute whose referenced transaction
is not `Open`, and a Resolve or Chargeback whose referenced transaction is
not `Pending`, return `Ok` with the whole ledger state — the transaction's
status and every account balance — unchanged.  In particular a transaction
in status `Chargeback`, which is neither `Open` nor `Pending`, never changes
status again. -/
theorem status_gates_reference_ops (s : Accounts) (c t : Nat) (a : Account)
    (tr : Transaction) (ha : findKV s.inner c = some a) (hcl : a.client = c)
    (ht : findKV s.transactions t = some tr) :
    (tr.status ≠ Status.Open → s.dispute c t = (Except.ok (), s)) ∧
    (tr.status ≠ Status.Pending → s.resolve c t = (Except.ok (), s)) ∧
    (tr.status ≠ Status.Pending → s.chargeback c t = (Except.ok (), s)) := by
  have hacc := Accounts.account_of_some ha
  have hupd : s.update_account a = s :=
    Accounts.update_account_self (by rwa [hcl])
  refine ⟨?_, ?_, ?_⟩
  · intro hne
    by_cases hfr : a.frozen = true
    · simp [Accounts.dispute, Accounts.transaction, ht, hacc, hfr]
    · cases hst : tr.status with
      | Open => exact absurd hst hne
      | Pending =>
        simp [Accounts.dispute, Accounts.transaction, ht, hacc, hfr, hst, hupd]
      | Resolved =>
        simp [Accounts.dispute, Accounts.transaction, ht, hacc, hfr, hst, hupd]
      | Chargeback =>
        simp [Accounts.dispute, Accounts.transaction, ht, hacc, hfr, hst, hupd]
  · intro hne
    by_cases hfr : a.frozen = true
    · simp [Accounts.resolve, Accounts.transaction, ht, hacc, hfr]
    · cases hst : tr.status with
      | Pending => exact absurd hst hne
      | Open =>
        simp [Accounts.resolve, Accounts.transaction, ht, hacc, hfr, hst, hupd]
      | Resolved =>
        simp [Accounts.resolve, Accounts.transaction, ht, hacc, hfr, hst, hupd]
      | Chargeback =>
        simp [Accounts.resolve, Accounts.transaction, ht, hacc, hfr, hst, hupd]
  · intro hne
    by_cases hfr : a.frozen = true
    · simp [Accounts.chargeback, Accounts.transaction, ht, hacc, hfr]
    · cases hst : tr.status with
      | Pending => exact absurd hst hne
      | Open =>
        simp [Accounts.chargeback, Accounts.transaction, ht, hacc, hfr, hst,
          hupd]
      | Resolved =>
        simp [Accounts.chargeback, Accounts.transaction, ht, hacc, hfr, hst,
          hupd]
      | Chargeback =>
        simp [Accounts.chargeback, Accounts.transaction, ht, hacc, hfr, hst,
          hupd]

/-- Witness for C7: after `Deposit(1,100,61)`, `Dispute(1,61)`,
`Resolve(1,61)`, transaction 61 is `Resolved`, so Dispute, Resolve and
Chargeback on it are all successful no-ops. -/
theorem status_gates_reference_ops_witness :
    (findKV (runEvents [Event.deposit 1 100 61, Event.dispute 1 61,
        Event.resolve 1 61]).inner 1 = some ⟨1, 100, 0, 100, false⟩ ∧
      findKV (runEvents [Event.deposit 1 100 61, Event.dispute 1 61,
        Event.resolve 1 61]).transactions 61 =
          some ⟨61, 100, Status.Resolved⟩) ∧
    ((runEvents [Event.deposit 1 100 61, Event.dispute 1 61,
        Event.resolve 1 61]).dispute 1 61 =
      (Except.ok (), runEvents [Event.deposit 1 100 61, Event.dispute 1 61,
        Event.resolve 1 61]) ∧
      (runEvents [Event.deposit 1 100 61, Event.dispute 1 61,
        Event.resolve 1 61]).resolve 1 61 =
      (Except.ok (), runEvents [Event.deposit 1 100 61, Event.dispute 1 61,
        Event.resolve 1 61]) ∧
      (runEvents [Event.deposit 1 100 61, Event.dispute 1 61,
        Event.resolve 1 61]).chargeback 1 61 =
      (Except.ok (), runEvents [Event.deposit 1 100 61, Event.dispute 1 61,
        Event.resolve 1 61])) :=
  ⟨⟨by decide, by decide⟩,
    (status_gates_reference_ops
      (runEvents [Event.deposit 1 100 61, Event.dispute 1 61,
        Event.resolve 1 61]) 1 61 ⟨1, 100, 0, 100, false⟩
      ⟨61, 100, Status.Resolved⟩ (by decide) (by decide) (by decide)).1
      (by decide),
    (status_gates_reference_ops
      (runEvents [Event.deposit 1 100 61, Event.dispute 1 61,
        Event.resolve 1 61]) 1 61 ⟨1, 100, 0, 100, false⟩
      ⟨61, 100, Status.Resolved⟩ (by decide) (by decide) (by decide)).2.1
      (by decide),
    (status_gates_reference_ops
      (runEvents [Event.deposit 1 100 61, Event.dispute 1 61,
        Event.resolve 1 61]) 1 61 ⟨1, 100, 0, 100, false⟩
      ⟨61, 100, Status.Resolved⟩ (by decide) (by decide) (by decide)).2.2
      (by decide)⟩

/-- C8: continuing scenario 3, Chargeback(1,61) succeeds and yields
`held(1) = 0`, `total(1) = 220` with account 1 frozen; the subsequent
Deposit(1,69,100) succeeds as a no-op and `available(1)` stays 220. -/
theorem chargeback_scenario :
    (scenario3.chargeback 1 61).1 = Except.ok () ∧
    findKV scenario4.inner 1 = some ⟨1, 220, 0, 220, true⟩ ∧
    (scenario4.deposit 1 100 69).1 = Except.ok () ∧
    (scenario4.deposit 1 100 69).2 = scenario4 ∧
    findKV (scenario4.deposit 1 100 69).2.inner 1 =
      some ⟨1, 220, 0, 220, true⟩ := by
  refine ⟨by decide, by decide, by decide, by decide, by decide⟩

/-- C9: Dispute, Resolve and Chargeback never check that the event's client
id matches the client whose deposit/withdrawal created the referenced
transaction — the `Transaction` record stores no client id at all, and no
hypothesis below relates `c` to the transaction's origin.  Whenever the
transaction id is known and the status and funds allow, the recorded amount
is moved on the account of the client id given in the event. -/
theorem reference_ops_use_event_client (s : Accounts) (c t : Nat)
    (a : Account) (tr : Transaction) (ha : findKV s.inner c = some a)
    (hcl : a.client = c) (ht : findKV s.transactions t = some tr)
    (hid : tr.id = t) (hfr : a.locked = false)
    (htot : a.total = a.available + a.held) (hav : 0 ≤ a.available)
    (hh : 0 ≤ a.held) (hd : a.total ≤ DMAX) (h0 : 0 ≤ tr.amount) :
    (tr.status = Status.Open → tr.amount ≤ a.available →
      (s.dispute c t).1 = Except.ok () ∧
      findKV (s.dispute c t).2.inner c =
        some ⟨c, a.available - tr.amount, a.held + tr.amount, a.total,
          false⟩ ∧
      findKV (s.dispute c t).2.transactions t =
        some ⟨t, tr.amount, Status.Pending⟩) ∧
    (tr.status = Status.Pending → tr.amount ≤ a.held →
      (s.resolve c t).1 = Except.ok () ∧
      findKV (s.resolve c t).2.inner c =
        some ⟨c, a.available + tr.amount, a.held - tr.amount, a.total,
          false⟩) ∧
    (tr.status = Status.Pending → tr.amount ≤ a.held →
      (s.chargeback c t).1 = Except.ok () ∧
      findKV (s.chargeback c t).2.inner c =
        some ⟨c, a.available, a.held - tr.amount, a.total - tr.amount,
          true⟩) := by
  have hacc := Accounts.account_of_some ha
  refine ⟨?_, ?_, ?_⟩
  · intro hst hcov
    obtain ⟨a2, hok, hf1, hf2, hf3, hf4, hf5⟩ :=
      Account.dispute_ok htot hh hd h0 hcov
    have ha2 : a2 = ⟨c, a.available - tr.amount, a.held + tr.amount, a.total,
        false⟩ :=
      Account.eq_of_fields (by rw [hf5, hcl]) (by rw [hf1]) (by rw [hf2])
        (by rw [hf3]) (by rw [hf4, hfr])
    have hres : s.dispute c t =
        (Except.ok (),
          (s.update_transaction { tr with status := Status.Pending
            }).update_account a2) := by
      simp [Accounts.dispute, Accounts.transaction, ht, hacc, Account.frozen,
        hfr, hst, hok]
    rw [hres]
    refine ⟨rfl, ?_, ?_⟩
    · rw [ha2] at hf5 ⊢
      simp only [Accounts.update_account, Accounts.update_transaction]
      exact findKV_upsertKV_self _ c _
    · have htr2 : ({ tr with status := Status.Pending } : Transaction) =
          ⟨t, tr.amount, Status.Pending⟩ := by
        cases tr
        simp_all
      simp only [Accounts.update_account, Accounts.update_transaction, htr2,
        hid]
      exact findKV_upsertKV_self _ t _
  · intro hst hcov
    obtain ⟨a2, hok, hf1, hf2, hf3, hf4, hf5⟩ :=
      Account.resolve_ok htot hav hd h0 hcov
    have ha2 : a2 = ⟨c, a.available + tr.amount, a.held - tr.amount, a.total,
        false⟩ :=
      Account.eq_of_fields (by rw [hf5, hcl]) (by rw [hf1]) (by rw [hf2])
        (by rw [hf3]) (by rw [hf4, hfr])
    have hres : s.resolve c t =
        (Except.ok (),
          (s.update_transaction { tr with status := Status.Resolved
            }).update_account a2) := by
      simp [Accounts.resolve, Accounts.transaction, ht, hacc, Account.frozen,
        hfr, hst, hok]
    rw [hres]
    refine ⟨rfl, ?_⟩
    rw [ha2]
    simp only [Accounts.update_account, Accounts.update_transaction]
    exact findKV_upsertKV_self _ c _
  · intro hst hcov
    obtain ⟨a2, hok, hf1, hf2, hf3, hf4, hf5⟩ :=
      Account.chargeback_ok htot hav hd h0 hcov
    have ha2 : a2 = ⟨c, a.available, a.held - tr.amount, a.total - tr.amount,
        true⟩ :=
      Account.eq_of_fields (by rw [hf5, hcl]) (by rw [hf1]) (by rw [hf2])
        (by rw [hf3]) (by rw [hf4])
    have hres : s.chargeback c t =
        (Except.ok (),
          (s.update_transaction { tr with status := Status.Chargeback
            }).update_account a2) := by
      simp [Accounts.chargeback, Accounts.transaction, ht, hacc,
        Account.frozen, hfr, hst, hok]
    rw [hres]
    refine ⟨rfl, ?_⟩
    rw [ha2]
    simp only [Accounts.update_account, Accounts.update_transaction]
    exact findKV_upsertKV_self _ c _

/-- Witness for C9: transaction 7 was created by a deposit of client 2, yet
Dispute(client 1, tx 7) moves 30 from client 1's available into client 1's
held. -/
theorem reference_ops_use_event_client_witness :
    (findKV (runEvents [Event.deposit 2 30 7,
        Event.deposit 1 50 8]).inner 1 = some ⟨1, 50, 0, 50, false⟩ ∧
      findKV (runEvents [Event.deposit 2 30 7,
        Event.deposit 1 50 8]).transactions 7 = some ⟨7, 30, Status.Open⟩) ∧
    (((runEvents [Event.deposit 2 30 7, Event.deposit 1 50 8]).dispute
        1 7).1 = Except.ok () ∧
      findKV ((runEvents [Event.deposit 2 30 7,
          Event.deposit 1 50 8]).dispute 1 7).2.inner 1 =
        some ⟨1, (⟨1, 50, 0, 50, false⟩ : Account).available -
            (⟨7, 30, Status.Open⟩ : Transaction).amount,
          (⟨1, 50, 0, 50, false⟩ : Account).held +
            (⟨7, 30, Status.Open⟩ : Transaction).amount,
          (⟨1, 50, 0, 50, false⟩ : Account).total, false⟩ ∧
      findKV ((runEvents [Event.deposit 2 30 7,
          Event.deposit 1 50 8]).dispute 1 7).2.transactions 7 =
        some ⟨7, (⟨7, 30, Status.Open⟩ : Transaction).amount,
          Status.Pending⟩) :=
  ⟨⟨by decide, by decide⟩,
    (reference_ops_use_event_client
      (runEvents [Event.deposit 2 30 7, Event.deposit 1 50 8]) 1 7
      ⟨1, 50, 0, 50, false⟩ ⟨7, 30, Status.Open⟩ (by decide) (by decide)
      (by decide) (by decide) (by decide) (by decide) (by decide) (by decide)
      (by decide) (by decide)).1 (by decide) (by decide)⟩

/-- C10: a Deposit or Withdrawal with a fresh transaction id on a frozen
account succeeds while leaving the ledger unchanged — in particular no
`Transaction` is recorded for that id — so a later Deposit or Withdrawal
reusing the id, by any client, is not rejected with `TxExists`. -/
theorem frozen_account_leaves_tx_unused (s : Accounts) (c : Nat) (amt : Int)
    (t : Nat) (a : Account) (ht : findKV s.transactions t = none)
    (ha : findKV s.inner c = some a) (hfr : a.locked = true) :
    s.deposit c amt t = (Except.ok (), s) ∧
    s.withdraw c amt t = (Except.ok (), s) ∧
    (∀ c2 amt2, ((s.deposit c amt t).2.deposit c2 amt2 t).1 ≠
      Except.error Error.TxExists) ∧
    (∀ c2 amt2, ((s.withdraw c amt t).2.withdraw c2 amt2 t).1 ≠
      Except.error Error.TxExists) := by
  have hacc := Accounts.account_of_some ha
  have hdep : s.deposit c amt t = (Except.ok (), s) := by
    simp [Accounts.deposit, Accounts.transaction, ht, hacc, Account.frozen,
      hfr]
  have hwit : s.withdraw c amt t = (Except.ok (), s) := by
    simp [Accounts.withdraw, Accounts.transaction, ht, hacc, Account.frozen,
      hfr]
  refine ⟨hdep, hwit, ?_, ?_⟩
  · intro c2 amt2
    rw [hdep]
    simp only [Accounts.deposit, Accounts.transaction, ht,
      Option.isSome_none, Bool.false_eq_true, if_false]
    by_cases hfr2 : (s.account c2).2.frozen = true
    · simp [hfr2]
    · simp only [hfr2, Bool.false_eq_true, if_false]
      rcases hda : (s.account c2).2.deposit amt2 with ⟨fst, a3⟩
      cases fst with
      | ok u => simp
      | error e =>
        have hcases := Account.deposit_fst (s.account c2).2 amt2
        rw [hda] at hcases
        simp only at hcases
        rcases hcases with hcases | hcases
        · exact absurd hcases (by simp)
        · have he : e = Error.Overflow := by
            simpa using hcases
          simp [he]
  · intro c2 amt2
    rw [hwit]
    simp only [Accounts.withdraw, Accounts.transaction, ht,
      Option.isSome_none, Bool.false_eq_true, if_false]
    by_cases hfr2 : (s.account c2).2.frozen = true
    · simp [hfr2]
    · simp only [hfr2, Bool.false_eq_true, if_false]
      rcases hda : (s.account c2).2.withdraw amt2 with ⟨fst, a3⟩
      cases fst with
      | ok u => simp
      | error e =>
        have hcases := Account.withdraw_fst (s.account c2).2 amt2
        rw [hda] at hcases
        simp only at hcases
        rcases hcases with hcases | hcases | hcases
        · exact absurd hcases (by simp)
        · have he : e = Error.Overflow := by
            simpa using hcases
          simp [he]
        · have he : e = Error.InsufficientFunds := by
            simpa using hcases
          simp [he]

/-- Witness for C10 on the frozen account of `scenario4` and the fresh
transaction id 99, with the reuse checked for client 5 and amount 7. -/
theorem frozen_account_leaves_tx_unused_witness :
    (findKV scenario4.transactions 99 = none ∧
      findKV scenario4.inner 1 = some ⟨1, 220, 0, 220, true⟩) ∧
    (scenario4.deposit 1 3 99 = (Except.ok (), scenario4) ∧
      scenario4.withdraw 1 3 99 = (Except.ok (), scenario4) ∧
      ((scenario4.deposit 1 3 99).2.deposit 5 7 99).1 ≠
        Except.error Error.TxExists ∧
      ((scenario4.withdraw 1 3 99).2.withdraw 5 7 99).1 ≠
        Except.error Error.TxExists) :=
  ⟨⟨by decide, by decide⟩,
    (frozen_account_leaves_tx_unused scenario4 1 3 99 ⟨1, 220, 0, 220, true⟩
      (by decide) (by decide) (by decide)).1,
    (frozen_account_leaves_tx_unused scenario4 1 3 99 ⟨1, 220, 0, 220, true⟩
      (by decide) (by decide) (by decide)).2.1,
    (frozen_account_leaves_tx_unused scenario4 1 3 99 ⟨1, 220, 0, 220, true⟩
      (by decide) (by decide) (by decide)).2.2.1 5 7,
    (frozen_account_leaves_tx_unused scenario4 1 3 99 ⟨1, 220, 0, 220, true⟩
      (by decide) (by decide) (by decide)).2.2.2 5 7⟩

end Processor
